import Mathlib

/-!
# Bouncing DvD logo: the animation state machine of `src/main.cpp`

The embedding covers the mutable state of the program (`vertices`, `direction`,
`lastWidth`, `lastHeight`) and the two functions that change it, `frame` and
`resizeCallback`.  Calls into OpenGL / GLFW that neither read nor write that
state (buffer upload, clear, draw, swap) are left out.

`float` values are read as elements of an arbitrary linearly ordered field `α`
(exact arithmetic); `ℚ` is used to evaluate the definitions and `ℝ` carries the
genuine cosine and sine.
-/

namespace BouncingDvD

/-- Functions of the external maths library glm called by `frame` (line 99):
`glm::cos`, `glm::sin`, `glm::radians` and `glm::normalize` on `vec2`.
The library is not part of the repository, so it is a parameter. -/
structure Glm (α : Type) where
  cos : α → α
  sin : α → α
  radians : α → α
  normalize : α × α → α × α

/-- The tunable constants of lines 12-13. -/
structure Consts (α : Type) where
  MOVING_SPEED : α
  MARGIN : α

/-- Line 14: `constexpr auto WINDOW_SIZE = 800;`. -/
def WINDOW_SIZE : Int := 800

/-- The globals of lines 93, 94 and 137. -/
structure State (α : Type) where
  vertices : Fin 16 → α
  direction : α
  lastWidth : Int
  lastHeight : Int

section Defs

variable {α : Type} [LinearOrderedField α]

/-- Constants as written in the source: `MOVING_SPEED = 0.008f`, `MARGIN = 0.0f`. -/
def sourceConsts : Consts α := { MOVING_SPEED := 8 / 1000, MARGIN := 0 }

/-- The source constants with the speed constant set to 0. -/
def zeroSpeedConsts : Consts α := { MOVING_SPEED := 0, MARGIN := 0 }

/-- Values taken by `i` in `for (int i = 0; i < 16; i += 4)` (lines 100 and 145). -/
def loopIndices : List (Fin 16) := [0, 4, 8, 12]

/-- Line 99: `normalize(vec2(cos(radians(direction)), sin(radians(direction)))) * MOVING_SPEED`. -/
def directionVec (g : Glm α) (c : Consts α) (direction : α) : α × α :=
  let n := g.normalize (g.cos (g.radians direction), g.sin (g.radians direction))
  (n.1 * c.MOVING_SPEED, n.2 * c.MOVING_SPEED)

/-- Body of the loop of lines 100-104: `vertices[i] += x; vertices[i + 1] += y;`. -/
def translateStep (d : α × α) (v : Fin 16 → α) (i : Fin 16) : Fin 16 → α :=
  let v1 := Function.update v i (v i + d.1)
  Function.update v1 (i + 1) (v1 (i + 1) + d.2)

/-- The loop of lines 100-104. -/
def translate (d : α × α) (v : Fin 16 → α) : Fin 16 → α :=
  loopIndices.foldl (translateStep d) v

/-- Line 123: `lowerLeftPoint.x <= -1.0f + MARGIN || upperRightPoint.x >= 1.0f - MARGIN`,
with `lowerLeftPoint.x = vertices[8]` and `upperRightPoint.x = vertices[0]`. -/
def collisionX (c : Consts α) (v : Fin 16 → α) : Bool :=
  decide (v 8 ≤ -1 + c.MARGIN) || decide (v 0 ≥ 1 - c.MARGIN)

/-- Line 124: `lowerLeftPoint.y <= -1.0f + MARGIN || upperRightPoint.y >= 1.0f - MARGIN`,
with `lowerLeftPoint.y = vertices[9]` and `upperRightPoint.y = vertices[1]`. -/
def collisionY (c : Consts α) (v : Fin 16 → α) : Bool :=
  decide (v 9 ≤ -1 + c.MARGIN) || decide (v 1 ≥ 1 - c.MARGIN)

/-- Lines 128-129: `direction = 180.0f - direction; if (direction < 0) direction += 360.0f;`. -/
def reflectX (direction : α) : α :=
  let d := 180 - direction
  if d < 0 then d + 360 else d

/-- Line 133: `direction = 360.0f - direction;`. -/
def reflectY (direction : α) : α := 360 - direction

/-- The vertex buffer after the translation loop of `frame` (lines 99-104). -/
def translated (g : Glm α) (c : Consts α) (s : State α) : Fin 16 → α :=
  translate (directionVec g c s.direction) s.vertices

/-- One call of `frame` (lines 95-135) with no pending window event. -/
def frame (g : Glm α) (c : Consts α) (s : State α) : State α :=
  let vertices := translate (directionVec g c s.direction) s.vertices
  let cX := collisionX c vertices
  let cY := collisionY c vertices
  let direction1 := if cX then reflectX s.direction else s.direction
  let direction2 := if cY then reflectY direction1 else direction1
  { s with vertices := vertices, direction := direction2 }

/-- Body of the loop of lines 145-149: `vertices[i] *= scaleX; vertices[i + 1] *= scaleY;`. -/
def scaleStep (scaleX scaleY : α) (v : Fin 16 → α) (i : Fin 16) : Fin 16 → α :=
  let v1 := Function.update v i (v i * scaleX)
  Function.update v1 (i + 1) (v1 (i + 1) * scaleY)

/-- Lines 142-155 of `resizeCallback`: everything before the nested `frame(window)`. -/
def rescale (s : State α) (width height : Int) : State α :=
  let scaleX : α := (s.lastWidth : α) / (width : α)
  let scaleY : α := (s.lastHeight : α) / (height : α)
  { s with
    vertices := loopIndices.foldl (scaleStep scaleX scaleY) s.vertices
    lastWidth := width
    lastHeight := height }

/-- The function `resizeCallback` (lines 138-158): rescale, then one `frame` tick. -/
def resizeCallback (g : Glm α) (c : Consts α) (s : State α) (width height : Int) : State α :=
  frame g c (rescale s width height)

/-- The two entry points that mutate the state. -/
inductive Call where
  | frame : Call
  | resize (width height : Int) : Call

/-- Effect of one call. -/
def step (g : Glm α) (c : Consts α) (s : State α) : Call → State α
  | .frame => frame g c s
  | .resize w h => resizeCallback g c s w h

/-- Effect of a sequence of calls, first call first. -/
def run (g : Glm α) (c : Consts α) (s : State α) (calls : List Call) : State α :=
  calls.foldl (step g c) s

/-- State after `n` consecutive `frame` calls, as in the loop of lines 236-239. -/
def frames (g : Glm α) (c : Consts α) : Nat → State α → State α
  | 0, s => s
  | n + 1, s => frames g c n (frame g c s)

/-- Lines 201-208 of `main`: the initial vertex buffer, positions and texture coordinates,
for a given `halfWidth` and `uniformScale`. -/
def newVertices (halfWidth uniformScale : α) : Fin 16 → α :=
  ![ halfWidth,  (1 / 2) * uniformScale, 1, 1,
     halfWidth, -(1 / 2) * uniformScale, 1, 0,
    -halfWidth, -(1 / 2) * uniformScale, 0, 0,
    -halfWidth,  (1 / 2) * uniformScale, 0, 1]

/-- The globals once `main` has filled the vertex buffer (line 209), with the viewport
size of line 137, for a given `halfWidth`, `uniformScale` (0.5 in `main`, line 200) and
heading. -/
def initState (halfWidth uniformScale direction : α) : State α :=
  { vertices := newVertices halfWidth uniformScale
    direction := direction
    lastWidth := WINDOW_SIZE
    lastHeight := WINDOW_SIZE }

/-- The four positions form an axis-aligned rectangle of width `w` and height `h`, in the
layout of lines 204-207: top right at 0-1, bottom right at 4-5, bottom left at 8-9, top
left at 12-13. -/
def IsRectangle (v : Fin 16 → α) (w h : α) : Prop :=
  v 0 = v 4 ∧ v 8 = v 12 ∧ v 1 = v 13 ∧ v 5 = v 9 ∧ v 0 - v 8 = w ∧ v 1 - v 9 = h

instance (v : Fin 16 → α) (w h : α) : Decidable (IsRectangle v w h) := by
  unfold IsRectangle
  infer_instance

/-- Exact-arithmetic laws of the glm functions used by `frame`: `normalize` fixes unit
vectors, and cosine and sine of an angle given in degrees lie on the unit circle and obey
the supplement (180 - d), explement (360 - d) and full-turn (d + 360) identities. -/
structure ExactGlm (g : Glm α) : Prop where
  normalize_unit : ∀ v : α × α, v.1 ^ 2 + v.2 ^ 2 = 1 → g.normalize v = v
  unit : ∀ d : α, g.cos (g.radians d) ^ 2 + g.sin (g.radians d) ^ 2 = 1
  cos_supplement : ∀ d : α, g.cos (g.radians (180 - d)) = -g.cos (g.radians d)
  sin_supplement : ∀ d : α, g.sin (g.radians (180 - d)) = g.sin (g.radians d)
  cos_explement : ∀ d : α, g.cos (g.radians (360 - d)) = g.cos (g.radians d)
  sin_explement : ∀ d : α, g.sin (g.radians (360 - d)) = -g.sin (g.radians d)
  cos_turn : ∀ d : α, g.cos (g.radians (d + 360)) = g.cos (g.radians d)
  sin_turn : ∀ d : α, g.sin (g.radians (d + 360)) = g.sin (g.radians d)

/-- The glm functions expressed through a cosine, a sine, a square root and the constant
pi: `radians` multiplies by `pi / 180` and `normalize` multiplies a vector by the inverse
square root of its dot product with itself. -/
def glmOf (cos sin sqrt : α → α) (pi : α) : Glm α where
  cos := cos
  sin := sin
  radians := fun d => d * (pi / 180)
  normalize := fun v =>
    (v.1 * (sqrt (v.1 * v.1 + v.2 * v.2))⁻¹, v.2 * (sqrt (v.1 * v.1 + v.2 * v.2))⁻¹)

end Defs

/-- A rational evaluation model of glm, exact on the headings 0, 90, 180, 270 and 360
degrees, where cosine and sine are rational and the direction is already a unit vector.
`radians` keeps the angle in degrees; other headings are not meant to be evaluated. -/
def axisGlm : Glm ℚ where
  radians := fun d => d
  cos := fun d => if d = 0 ∨ d = 360 then 1 else if d = 180 then -1 else 0
  sin := fun d => if d = 90 then 1 else if d = 270 then -1 else 0
  normalize := fun v => v

/-! ## Shared lemmas -/

section Lemmas

variable {α : Type} [LinearOrderedField α]

theorem translate_x (d : α × α) (v : Fin 16 → α) (k : Fin 16) (hk : k.val % 4 = 0) :
    translate d v k = v k + d.1 := by
  fin_cases k <;> simp at hk <;> simp [translate, loopIndices, translateStep, Function.update]

theorem translate_y (d : α × α) (v : Fin 16 → α) (k : Fin 16) (hk : k.val % 4 = 1) :
    translate d v k = v k + d.2 := by
  fin_cases k <;> simp at hk <;> simp [translate, loopIndices, translateStep, Function.update]

theorem translate_tex (d : α × α) (v : Fin 16 → α) (k : Fin 16) (hk : 2 ≤ k.val % 4) :
    translate d v k = v k := by
  fin_cases k <;> simp at hk <;> simp [translate, loopIndices, translateStep, Function.update]

theorem frame_vertices (g : Glm α) (c : Consts α) (s : State α) :
    (frame g c s).vertices = translated g c s := rfl

theorem frame_direction (g : Glm α) (c : Consts α) (s : State α) :
    (frame g c s).direction =
      (if collisionY c (translated g c s) then
        reflectY (if collisionX c (translated g c s) then reflectX s.direction else s.direction)
      else (if collisionX c (translated g c s) then reflectX s.direction else s.direction)) := rfl

theorem collisionX_iff (c : Consts α) (v : Fin 16 → α) :
    collisionX c v = true ↔ (v 8 ≤ -1 + c.MARGIN ∨ v 0 ≥ 1 - c.MARGIN) := by
  simp [collisionX]

theorem collisionY_iff (c : Consts α) (v : Fin 16 → α) :
    collisionY c v = true ↔ (v 9 ≤ -1 + c.MARGIN ∨ v 1 ≥ 1 - c.MARGIN) := by
  simp [collisionY]

theorem newVertices_corners (a b : α) :
    newVertices a b 0 = a ∧ newVertices a b 1 = (1 / 2) * b ∧
    newVertices a b 8 = -a ∧ newVertices a b 9 = -(1 / 2) * b := ⟨rfl, rfl, rfl, rfl⟩

/-- Corner coordinates after the translation step, started from `initState`. -/
theorem translated_initState (g : Glm α) (c : Consts α) (a b h : α) :
    translated g c (initState a b h) 0 = a + (directionVec g c h).1 ∧
    translated g c (initState a b h) 1 = (1 / 2) * b + (directionVec g c h).2 ∧
    translated g c (initState a b h) 8 = -a + (directionVec g c h).1 ∧
    translated g c (initState a b h) 9 = -(1 / 2) * b + (directionVec g c h).2 := by
  refine ⟨?_, ?_, ?_, ?_⟩
  · exact translate_x _ _ 0 (by decide)
  · exact translate_y _ _ 1 (by decide)
  · exact translate_x _ _ 8 (by decide)
  · exact translate_y _ _ 9 (by decide)

theorem scale_x (a b : α) (v : Fin 16 → α) (k : Fin 16) (hk : k.val % 4 = 0) :
    loopIndices.foldl (scaleStep a b) v k = v k * a := by
  fin_cases k <;> simp at hk <;> simp [loopIndices, scaleStep, Function.update]

theorem scale_y (a b : α) (v : Fin 16 → α) (k : Fin 16) (hk : k.val % 4 = 1) :
    loopIndices.foldl (scaleStep a b) v k = v k * b := by
  fin_cases k <;> simp at hk <;> simp [loopIndices, scaleStep, Function.update]

theorem scale_tex (a b : α) (v : Fin 16 → α) (k : Fin 16) (hk : 2 ≤ k.val % 4) :
    loopIndices.foldl (scaleStep a b) v k = v k := by
  fin_cases k <;> simp at hk <;> simp [loopIndices, scaleStep, Function.update]

theorem scale_one (v : Fin 16 → α) : loopIndices.foldl (scaleStep (1 : α) 1) v = v := by
  funext k
  fin_cases k <;> simp [loopIndices, scaleStep, Function.update]

theorem translate_zero (v : Fin 16 → α) : translate ((0 : α), (0 : α)) v = v := by
  funext k
  fin_cases k <;> simp [translate, loopIndices, translateStep, Function.update]

theorem frames_succ (g : Glm α) (c : Consts α) (n : Nat) (s : State α) :
    frames g c (n + 1) s = frame g c (frames g c n s) := by
  induction n generalizing s with
  | zero => rfl
  | succ n ih =>
    show frames g c (n + 1) (frame g c s) = _
    rw [ih]
    rfl

theorem directionVec_exact (g : Glm α) (c : Consts α) (hg : ExactGlm g) (d : α) :
    directionVec g c d
      = (g.cos (g.radians d) * c.MOVING_SPEED, g.sin (g.radians d) * c.MOVING_SPEED) := by
  have e := hg.normalize_unit (g.cos (g.radians d), g.sin (g.radians d)) (hg.unit d)
  simp only [directionVec, e]

theorem reflectX_trig (g : Glm α) (hg : ExactGlm g) (d : α) :
    g.cos (g.radians (reflectX d)) = -g.cos (g.radians d) ∧
    g.sin (g.radians (reflectX d)) = g.sin (g.radians d) := by
  unfold reflectX
  by_cases h : 180 - d < 0
  · simp only [h, if_true]
    rw [hg.cos_turn, hg.sin_turn, hg.cos_supplement, hg.sin_supplement]
    exact ⟨rfl, rfl⟩
  · simp only [h, if_false]
    exact ⟨hg.cos_supplement d, hg.sin_supplement d⟩

theorem reflectY_trig (g : Glm α) (hg : ExactGlm g) (d : α) :
    g.cos (g.radians (reflectY d)) = g.cos (g.radians d) ∧
    g.sin (g.radians (reflectY d)) = -g.sin (g.radians d) :=
  ⟨hg.cos_explement d, hg.sin_explement d⟩

theorem frame_direction_bounds (g : Glm α) (c : Consts α) (s : State α)
    (h0 : 0 ≤ s.direction) (h1 : s.direction ≤ 360) :
    0 ≤ (frame g c s).direction ∧ (frame g c s).direction ≤ 360 := by
  rw [frame_direction]
  unfold reflectX reflectY
  cases collisionX c (translated g c s) <;> cases collisionY c (translated g c s) <;>
    simp only [if_true, if_false, Bool.false_eq_true] <;>
    (try split_ifs) <;> constructor <;> linarith

/-- The real-number cosine, sine and square root obey the exact-arithmetic laws. -/
theorem real_glm_exact : ExactGlm (glmOf Real.cos Real.sin Real.sqrt Real.pi) where
  normalize_unit := by
    intro v hv
    have e : v.1 * v.1 + v.2 * v.2 = 1 := by rw [← hv]; ring
    simp [glmOf, e]
  unit := fun d => Real.cos_sq_add_sin_sq _
  cos_supplement := by
    intro d
    show Real.cos ((180 - d) * (Real.pi / 180)) = -Real.cos (d * (Real.pi / 180))
    rw [← Real.cos_pi_sub]; congr 1; ring
  sin_supplement := by
    intro d
    show Real.sin ((180 - d) * (Real.pi / 180)) = Real.sin (d * (Real.pi / 180))
    rw [← Real.sin_pi_sub]; congr 1; ring
  cos_explement := by
    intro d
    show Real.cos ((360 - d) * (Real.pi / 180)) = Real.cos (d * (Real.pi / 180))
    rw [← Real.cos_two_pi_sub]; congr 1; ring
  sin_explement := by
    intro d
    show Real.sin ((360 - d) * (Real.pi / 180)) = -Real.sin (d * (Real.pi / 180))
    rw [← Real.sin_two_pi_sub]; congr 1; ring
  cos_turn := by
    intro d
    show Real.cos ((d + 360) * (Real.pi / 180)) = Real.cos (d * (Real.pi / 180))
    rw [← Real.cos_add_two_pi (d * (Real.pi / 180))]; congr 1; ring
  sin_turn := by
    intro d
    show Real.sin ((d + 360) * (Real.pi / 180)) = Real.sin (d * (Real.pi / 180))
    rw [← Real.sin_add_two_pi (d * (Real.pi / 180))]; congr 1; ring

/-- Displacement of heading 0 for the real cosine, sine and square root. -/
theorem realGlm_dir_zero :
    directionVec (glmOf Real.cos Real.sin Real.sqrt Real.pi) sourceConsts (0 : ℝ)
      = (8 / 1000, 0) := by
  rw [directionVec_exact _ _ real_glm_exact]
  simp [glmOf, sourceConsts]

/-- On the headings 0, 90, 180, 270 and 360 the rational axis model returns the values of
the real cosine and sine. -/
theorem axisGlm_agrees_real (d : ℚ)
    (hd : d = 0 ∨ d = 90 ∨ d = 180 ∨ d = 270 ∨ d = 360) :
    Real.cos ((d : ℝ) * (Real.pi / 180)) = ((axisGlm.cos (axisGlm.radians d) : ℚ) : ℝ) ∧
    Real.sin ((d : ℝ) * (Real.pi / 180)) = ((axisGlm.sin (axisGlm.radians d) : ℚ) : ℝ) := by
  have e90 : (90 : ℝ) * (Real.pi / 180) = Real.pi / 2 := by ring
  have e180 : (180 : ℝ) * (Real.pi / 180) = Real.pi := by ring
  have e270 : (270 : ℝ) * (Real.pi / 180) = Real.pi + Real.pi / 2 := by ring
  have e360 : (360 : ℝ) * (Real.pi / 180) = 2 * Real.pi := by ring
  rcases hd with h | h | h | h | h <;> subst h
  · simp [axisGlm]
  · constructor
    · push_cast; rw [e90]; simp [axisGlm]
    · push_cast; rw [e90]; simp [axisGlm]
  · constructor
    · push_cast; rw [e180]; simp [axisGlm]
    · push_cast; rw [e180]; simp [axisGlm]
  · constructor
    · push_cast; rw [e270, Real.cos_add]; simp [axisGlm]
    · push_cast; rw [e270, Real.sin_add]; simp [axisGlm]
  · constructor
    · push_cast; rw [e360]; simp [axisGlm]
    · push_cast; rw [e360]; simp [axisGlm]

end Lemmas

theorem axisGlm_dir_zero : directionVec axisGlm sourceConsts (0 : ℚ) = (8 / 1000, 0) := by
  simp [directionVec, axisGlm, sourceConsts]

/-! ## Reflection rules of `frame` -/

section Reflection

variable {α : Type} [LinearOrderedField α]

/-- C1. Horizontal reflection: when, after the translation step of `frame`, the lower-left x
(`vertices[8]`) is at most `-1 + MARGIN` or the upper-right x (`vertices[0]`) is at least
`1 - MARGIN`, and no vertical collision is detected, the new heading is `180 - h` if that is
non-negative and `180 - h + 360` otherwise. -/
theorem frame_horizontal_reflection (g : Glm α) (c : Consts α) (s : State α)
    (hX : translated g c s 8 ≤ -1 + c.MARGIN ∨ translated g c s 0 ≥ 1 - c.MARGIN)
    (hY : ¬ (translated g c s 9 ≤ -1 + c.MARGIN ∨ translated g c s 1 ≥ 1 - c.MARGIN)) :
    (180 - s.direction ≥ 0 → (frame g c s).direction = 180 - s.direction) ∧
    (180 - s.direction < 0 → (frame g c s).direction = 180 - s.direction + 360) := by
  have hx : collisionX c (translated g c s) = true := (collisionX_iff _ _).2 hX
  have hy : collisionY c (translated g c s) = false := by
    rw [← Bool.not_eq_true, collisionY_iff]; exact hY
  rw [frame_direction, hx, hy]
  constructor
  · intro h
    simp [reflectX, not_lt.2 h]
  · intro h
    simp [reflectX, h]

/-- Witness for C1: a quad of half-width 1 heading along +x touches the right edge. -/
theorem frame_horizontal_reflection_witness :
    (translated axisGlm sourceConsts (initState (1 : ℚ) (1 / 2) 0) 8 ≤ -1 + 0 ∨
      translated axisGlm sourceConsts (initState (1 : ℚ) (1 / 2) 0) 0 ≥ 1 - 0) ∧
    ¬ (translated axisGlm sourceConsts (initState (1 : ℚ) (1 / 2) 0) 9 ≤ -1 + 0 ∨
      translated axisGlm sourceConsts (initState (1 : ℚ) (1 / 2) 0) 1 ≥ 1 - 0) ∧
    (frame axisGlm sourceConsts (initState (1 : ℚ) (1 / 2) 0)).direction = 180 := by
  have t := translated_initState axisGlm sourceConsts (1 : ℚ) (1 / 2) 0
  rw [axisGlm_dir_zero] at t
  obtain ⟨t0, t1, t8, t9⟩ := t
  have hX : translated axisGlm sourceConsts (initState (1 : ℚ) (1 / 2) 0) 8 ≤ -1 + 0 ∨
      translated axisGlm sourceConsts (initState (1 : ℚ) (1 / 2) 0) 0 ≥ 1 - 0 := by
    rw [t0, t8]; norm_num
  have hY : ¬ (translated axisGlm sourceConsts (initState (1 : ℚ) (1 / 2) 0) 9 ≤ -1 + 0 ∨
      translated axisGlm sourceConsts (initState (1 : ℚ) (1 / 2) 0) 1 ≥ 1 - 0) := by
    rw [t1, t9]; norm_num
  refine ⟨hX, hY, ?_⟩
  have h := (frame_horizontal_reflection axisGlm sourceConsts _ hX hY).1
    (by norm_num [initState])
  rw [h]; norm_num [initState]

/-- C2. Vertical reflection: when, after the translation step of `frame`, the lower-left y
(`vertices[9]`) is at most `-1 + MARGIN` or the upper-right y (`vertices[1]`) is at least
`1 - MARGIN`, and no horizontal collision is detected, the new heading is exactly `360 - h`,
for every `h` (no renormalisation, whatever the sign or size of `360 - h`). -/
theorem frame_vertical_reflection (g : Glm α) (c : Consts α) (s : State α)
    (hY : translated g c s 9 ≤ -1 + c.MARGIN ∨ translated g c s 1 ≥ 1 - c.MARGIN)
    (hX : ¬ (translated g c s 8 ≤ -1 + c.MARGIN ∨ translated g c s 0 ≥ 1 - c.MARGIN)) :
    (frame g c s).direction = 360 - s.direction := by
  have hy : collisionY c (translated g c s) = true := (collisionY_iff _ _).2 hY
  have hx : collisionX c (translated g c s) = false := by
    rw [← Bool.not_eq_true, collisionX_iff]; exact hX
  rw [frame_direction, hx, hy]
  simp [reflectY]

/-- Witness for C2: a quad of half-height 1 heading along +x touches the top and bottom
edges only; heading 0 becomes 360. -/
theorem frame_vertical_reflection_witness :
    (translated axisGlm sourceConsts (initState (2 / 10 : ℚ) 2 0) 9 ≤ -1 + 0 ∨
      translated axisGlm sourceConsts (initState (2 / 10 : ℚ) 2 0) 1 ≥ 1 - 0) ∧
    ¬ (translated axisGlm sourceConsts (initState (2 / 10 : ℚ) 2 0) 8 ≤ -1 + 0 ∨
      translated axisGlm sourceConsts (initState (2 / 10 : ℚ) 2 0) 0 ≥ 1 - 0) ∧
    (frame axisGlm sourceConsts (initState (2 / 10 : ℚ) 2 0)).direction = 360 - 0 := by
  have t := translated_initState axisGlm sourceConsts (2 / 10 : ℚ) 2 0
  rw [axisGlm_dir_zero] at t
  obtain ⟨t0, t1, t8, t9⟩ := t
  have hY : translated axisGlm sourceConsts (initState (2 / 10 : ℚ) 2 0) 9 ≤ -1 + 0 ∨
      translated axisGlm sourceConsts (initState (2 / 10 : ℚ) 2 0) 1 ≥ 1 - 0 := by
    rw [t1, t9]; norm_num
  have hX : ¬ (translated axisGlm sourceConsts (initState (2 / 10 : ℚ) 2 0) 8 ≤ -1 + 0 ∨
      translated axisGlm sourceConsts (initState (2 / 10 : ℚ) 2 0) 0 ≥ 1 - 0) := by
    rw [t0, t8]; norm_num
  exact ⟨hY, hX, frame_vertical_reflection axisGlm sourceConsts _ hY hX⟩

/-- C3. Corner composition: when one `frame` tick detects both a horizontal and a vertical
collision (both tests read the same post-translation buffer), the new heading is `360 - r`,
where `r = 180 - h` if `180 - h` is non-negative and `r = 540 - h` otherwise. -/
theorem frame_corner_composition (g : Glm α) (c : Consts α) (s : State α)
    (hX : translated g c s 8 ≤ -1 + c.MARGIN ∨ translated g c s 0 ≥ 1 - c.MARGIN)
    (hY : translated g c s 9 ≤ -1 + c.MARGIN ∨ translated g c s 1 ≥ 1 - c.MARGIN) :
    (frame g c s).direction =
      360 - (if 180 - s.direction ≥ 0 then 180 - s.direction else 540 - s.direction) := by
  have hx : collisionX c (translated g c s) = true := (collisionX_iff _ _).2 hX
  have hy : collisionY c (translated g c s) = true := (collisionY_iff _ _).2 hY
  rw [frame_direction, hx, hy]
  by_cases h : 180 - s.direction < 0
  · simp only [reflectY, reflectX, h, if_true, if_neg (not_le.2 h), ge_iff_le]
    ring
  · simp only [reflectY, reflectX, h, if_true, if_false, if_pos (not_lt.1 h), ge_iff_le]

/-- Witness for C3: a quad of half-width 1 and half-height 1 heading along +x touches all
edges; heading 0 becomes 360 - 180. -/
theorem frame_corner_composition_witness :
    (translated axisGlm sourceConsts (initState (1 : ℚ) 2 0) 8 ≤ -1 + 0 ∨
      translated axisGlm sourceConsts (initState (1 : ℚ) 2 0) 0 ≥ 1 - 0) ∧
    (translated axisGlm sourceConsts (initState (1 : ℚ) 2 0) 9 ≤ -1 + 0 ∨
      translated axisGlm sourceConsts (initState (1 : ℚ) 2 0) 1 ≥ 1 - 0) ∧
    (frame axisGlm sourceConsts (initState (1 : ℚ) 2 0)).direction = 360 - 180 := by
  have t := translated_initState axisGlm sourceConsts (1 : ℚ) 2 0
  rw [axisGlm_dir_zero] at t
  obtain ⟨t0, t1, t8, t9⟩ := t
  have hX : translated axisGlm sourceConsts (initState (1 : ℚ) 2 0) 8 ≤ -1 + 0 ∨
      translated axisGlm sourceConsts (initState (1 : ℚ) 2 0) 0 ≥ 1 - 0 := by
    rw [t0, t8]; norm_num
  have hY : translated axisGlm sourceConsts (initState (1 : ℚ) 2 0) 9 ≤ -1 + 0 ∨
      translated axisGlm sourceConsts (initState (1 : ℚ) 2 0) 1 ≥ 1 - 0 := by
    rw [t1, t9]; norm_num
  refine ⟨hX, hY, ?_⟩
  rw [frame_corner_composition axisGlm sourceConsts _ hX hY]
  norm_num [initState]

end Reflection

/-! ## Resizing -/

section Resize

variable {α : Type} [LinearOrderedField α]

/-- C4. Resize rescaling: for a stored viewport size `(W0, H0)` and a new size `(W1, H1)`
with `W1 > 0` and `H1 > 0`, the buffer that `resizeCallback` hands to its nested `frame`
tick has every position x multiplied by `W0 / W1`, every position y multiplied by
`H0 / H1` and all eight texcoord entries unchanged, and the stored viewport size after the
call is `(W1, H1)`. -/
theorem resizeCallback_rescaling (g : Glm α) (c : Consts α) (s : State α) (W1 H1 : Int)
    (_hW : 0 < W1) (_hH : 0 < H1) :
    resizeCallback g c s W1 H1 = frame g c (rescale s W1 H1) ∧
    (∀ k : Fin 16, k.val % 4 = 0 →
      (rescale s W1 H1).vertices k = s.vertices k * ((s.lastWidth : α) / (W1 : α))) ∧
    (∀ k : Fin 16, k.val % 4 = 1 →
      (rescale s W1 H1).vertices k = s.vertices k * ((s.lastHeight : α) / (H1 : α))) ∧
    (∀ k : Fin 16, 2 ≤ k.val % 4 → (rescale s W1 H1).vertices k = s.vertices k) ∧
    (resizeCallback g c s W1 H1).lastWidth = W1 ∧
    (resizeCallback g c s W1 H1).lastHeight = H1 :=
  ⟨rfl, fun k hk => scale_x _ _ _ k hk, fun k hk => scale_y _ _ _ k hk,
    fun k hk => scale_tex _ _ _ k hk, rfl, rfl⟩

/-- Witness for C4: the 800 x 800 window resized to 400 x 1600. -/
theorem resizeCallback_rescaling_witness :
    (0 : Int) < 400 ∧ (0 : Int) < 1600 ∧
    (rescale (initState (2 / 10 : ℚ) (1 / 2) 0) 400 1600).vertices 0
      = (2 / 10) * (800 / 400) ∧
    (rescale (initState (2 / 10 : ℚ) (1 / 2) 0) 400 1600).vertices 1
      = (1 / 4) * (800 / 1600) ∧
    (rescale (initState (2 / 10 : ℚ) (1 / 2) 0) 400 1600).vertices 2 = 1 ∧
    (resizeCallback axisGlm sourceConsts (initState (2 / 10 : ℚ) (1 / 2) 0) 400 1600).lastWidth
      = 400 := by
  have h := resizeCallback_rescaling axisGlm sourceConsts (initState (2 / 10 : ℚ) (1 / 2) 0)
    400 1600 (by decide) (by decide)
  obtain ⟨-, hx, hy, ht, hw, -⟩ := h
  refine ⟨by decide, by decide, ?_, ?_, ?_, hw⟩
  · rw [hx 0 (by decide)]
    have : (initState (2 / 10 : ℚ) (1 / 2) 0).vertices 0 = 2 / 10 := rfl
    rw [this]; norm_num [initState, WINDOW_SIZE]
  · rw [hy 1 (by decide)]
    have : (initState (2 / 10 : ℚ) (1 / 2) 0).vertices 1 = 1 / 2 * (1 / 2) := rfl
    rw [this]; norm_num [initState, WINDOW_SIZE]
  · rw [ht 2 (by decide)]; rfl

/-- From the 800 x 800 start state with heading 0, a resize to 800 x 800 puts the
upper-right x at 0.208, for every glm whose displacement at heading 0 is `(0.008, 0)`. -/
theorem same_size_resize_vertex (g : Glm α)
    (hdir : directionVec g sourceConsts 0 = (8 / 1000, 0)) :
    (resizeCallback g sourceConsts (initState (2 / 10 : α) (1 / 2) 0) 800 800).vertices 0
      = 208 / 1000 := by
  have e : (rescale (initState (2 / 10 : α) (1 / 2) 0) 800 800).direction = 0 := rfl
  have r : (rescale (initState (2 / 10 : α) (1 / 2) 0) 800 800).vertices 0
      = 2 / 10 * (((800 : Int) : α) / ((800 : Int) : α)) := by
    simp only [rescale]
    rw [scale_x _ _ _ 0 (by decide)]
    rfl
  rw [resizeCallback, frame_vertices, translated, translate_x _ _ 0 (by decide), e, hdir, r]
  norm_num

/-- Counterexample to C5: with the stored size 800 x 800, a resize to 800 x 800 moves the
upper-right x from 0.2 to 0.208, so the vertex buffer is not left unchanged; evaluated in
the rational axis model and with the real cosine, sine and square root. -/
theorem resize_same_size_moves_quad :
    (initState (2 / 10 : ℚ) (1 / 2) 0).lastWidth = 800 ∧
    (initState (2 / 10 : ℚ) (1 / 2) 0).lastHeight = 800 ∧
    (initState (2 / 10 : ℚ) (1 / 2) 0).vertices 0 = 200 / 1000 ∧
    (resizeCallback axisGlm sourceConsts (initState (2 / 10 : ℚ) (1 / 2) 0) 800 800).vertices 0
      = 208 / 1000 ∧
    (resizeCallback axisGlm sourceConsts (initState (2 / 10 : ℚ) (1 / 2) 0) 800 800).vertices
      ≠ (initState (2 / 10 : ℚ) (1 / 2) 0).vertices ∧
    (resizeCallback (glmOf Real.cos Real.sin Real.sqrt Real.pi) sourceConsts
        (initState (2 / 10 : ℝ) (1 / 2) 0) 800 800).vertices
      ≠ (initState (2 / 10 : ℝ) (1 / 2) 0).vertices := by
  have h0 : (initState (2 / 10 : ℚ) (1 / 2) 0).vertices 0 = 200 / 1000 := by
    have : (initState (2 / 10 : ℚ) (1 / 2) 0).vertices 0 = 2 / 10 := rfl
    rw [this]; norm_num
  have h1 := same_size_resize_vertex axisGlm axisGlm_dir_zero
  have r0 : (initState (2 / 10 : ℝ) (1 / 2) 0).vertices 0 = 2 / 10 := rfl
  have r1 := same_size_resize_vertex (glmOf Real.cos Real.sin Real.sqrt Real.pi)
    realGlm_dir_zero
  refine ⟨rfl, rfl, h0, h1, ?_, ?_⟩
  · intro h
    have := congrFun h 0
    rw [h0, h1] at this
    norm_num at this
  · intro h
    have := congrFun h 0
    rw [r0, r1] at this
    norm_num at this

/-- C5 (amended). With a stored viewport size `(W, H)`, `W > 0` and `H > 0`, the rescaling
step of `resizeCallback` called with `W` and `H` leaves the vertex buffer, the heading and
the stored size unchanged, so the whole call has exactly the effect of one `frame` tick and
the stored viewport size stays `(W, H)`. -/
theorem resizeCallback_same_size (g : Glm α) (c : Consts α) (s : State α)
    (hW : 0 < s.lastWidth) (hH : 0 < s.lastHeight) :
    rescale s s.lastWidth s.lastHeight = s ∧
    resizeCallback g c s s.lastWidth s.lastHeight = frame g c s ∧
    (resizeCallback g c s s.lastWidth s.lastHeight).lastWidth = s.lastWidth ∧
    (resizeCallback g c s s.lastWidth s.lastHeight).lastHeight = s.lastHeight := by
  have hw : ((s.lastWidth : α) / (s.lastWidth : α)) = 1 :=
    div_self (Int.cast_ne_zero.2 (ne_of_gt hW))
  have hh : ((s.lastHeight : α) / (s.lastHeight : α)) = 1 :=
    div_self (Int.cast_ne_zero.2 (ne_of_gt hH))
  have hr : rescale s s.lastWidth s.lastHeight = s := by
    cases s
    simp only [rescale] at hw hh ⊢
    rw [hw, hh, scale_one]
  refine ⟨hr, ?_, rfl, rfl⟩
  rw [resizeCallback, hr]

/-- Witness for C5 (amended): the 800 x 800 window resized to 800 x 800. -/
theorem resizeCallback_same_size_witness :
    0 < (initState (2 / 10 : ℚ) (1 / 2) 0).lastWidth ∧
    0 < (initState (2 / 10 : ℚ) (1 / 2) 0).lastHeight ∧
    resizeCallback axisGlm sourceConsts (initState (2 / 10 : ℚ) (1 / 2) 0) 800 800
      = frame axisGlm sourceConsts (initState (2 / 10 : ℚ) (1 / 2) 0) :=
  ⟨by decide, by decide,
    (resizeCallback_same_size axisGlm sourceConsts (initState (2 / 10 : ℚ) (1 / 2) 0)
      (by decide) (by decide)).2.1⟩

end Resize

/-! ## Motion -/

section Motion

variable {α : Type} [LinearOrderedField α]

/-- With speed 0 and a quad of half-width 1, the first `frame` call turns heading 0 into
180, whatever the glm functions return. -/
theorem zero_speed_edge_heading (g : Glm α) :
    (frames g zeroSpeedConsts 1 (initState (1 : α) (1 / 2) 0)).direction = 180 := by
  show (frame g zeroSpeedConsts (initState (1 : α) (1 / 2) 0)).direction = 180
  have d : directionVec g zeroSpeedConsts (initState (1 : α) (1 / 2) 0).direction = (0, 0) := by
    simp [directionVec, zeroSpeedConsts]
  have c := newVertices_corners (1 : α) (1 / 2)
  rw [frame_direction, translated, d, translate_zero]
  simp only [collisionX, collisionY, initState, c, zeroSpeedConsts]
  norm_num [reflectX]

/-- Counterexample to C6: with speed 0, a quad whose right edge is at x = 1 and whose left
edge is at x = -1 is reflected by the very first `frame` call: heading 0 becomes 180;
evaluated in the rational axis model and with the real cosine, sine and square root. -/
theorem zero_speed_reflects_on_edge :
    (zeroSpeedConsts : Consts ℚ).MOVING_SPEED = 0 ∧
    (initState (1 : ℚ) (1 / 2) 0).direction = 0 ∧
    (frames axisGlm zeroSpeedConsts 1 (initState (1 : ℚ) (1 / 2) 0)).direction = 180 ∧
    (frames axisGlm zeroSpeedConsts 1 (initState (1 : ℚ) (1 / 2) 0)).direction
      ≠ (initState (1 : ℚ) (1 / 2) 0).direction ∧
    (frames (glmOf Real.cos Real.sin Real.sqrt Real.pi) zeroSpeedConsts 1
        (initState (1 : ℝ) (1 / 2) 0)).direction
      ≠ (initState (1 : ℝ) (1 / 2) 0).direction := by
  refine ⟨rfl, rfl, zero_speed_edge_heading axisGlm, ?_, ?_⟩
  · rw [zero_speed_edge_heading axisGlm]
    show (180 : ℚ) ≠ 0
    norm_num
  · rw [zero_speed_edge_heading (glmOf Real.cos Real.sin Real.sqrt Real.pi)]
    show (180 : ℝ) ≠ 0
    norm_num

/-- C6 (amended). With the speed constant 0, the vertex buffer after any number `n` of
consecutive `frame` calls equals the starting buffer; and when the starting quad lies
strictly inside the bounds on both axes, no call reflects and the heading after the `n`
calls equals the starting heading. -/
theorem zero_speed_no_motion (g : Glm α) (c : Consts α) (s : State α) (n : Nat)
    (h0 : c.MOVING_SPEED = 0) :
    (frames g c n s).vertices = s.vertices ∧
    (¬ (s.vertices 8 ≤ -1 + c.MARGIN ∨ s.vertices 0 ≥ 1 - c.MARGIN) →
      ¬ (s.vertices 9 ≤ -1 + c.MARGIN ∨ s.vertices 1 ≥ 1 - c.MARGIN) →
      (frames g c n s).direction = s.direction) := by
  have hd : ∀ h : α, directionVec g c h = (0, 0) := by
    intro h
    simp [directionVec, h0]
  have hv : ∀ t : State α, (frame g c t).vertices = t.vertices := by
    intro t
    rw [frame_vertices, translated, hd, translate_zero]
  have hvn : ∀ m : Nat, (frames g c m s).vertices = s.vertices := by
    intro m
    induction m with
    | zero => rfl
    | succ m ih => rw [frames_succ, hv, ih]
  refine ⟨hvn n, ?_⟩
  intro hX hY
  have hx : collisionX c s.vertices = false := by
    rw [← Bool.not_eq_true, collisionX_iff]; exact hX
  have hy : collisionY c s.vertices = false := by
    rw [← Bool.not_eq_true, collisionY_iff]; exact hY
  induction n with
  | zero => rfl
  | succ m ih =>
    rw [frames_succ, frame_direction, translated, hd, translate_zero, hvn m, hx, hy]
    simpa using ih

/-- Witness for C6 (amended): the centred quad of half-extent 0.2 x 0.25, ten calls. -/
theorem zero_speed_no_motion_witness :
    (zeroSpeedConsts : Consts ℚ).MOVING_SPEED = 0 ∧
    (frames axisGlm zeroSpeedConsts 10
      (initState (2 / 10 : ℚ) (1 / 2) 90)).vertices
      = (initState (2 / 10 : ℚ) (1 / 2) 90).vertices ∧
    (frames axisGlm zeroSpeedConsts 10
      (initState (2 / 10 : ℚ) (1 / 2) 90)).direction = 90 := by
  have h := zero_speed_no_motion axisGlm zeroSpeedConsts
    (initState (2 / 10 : ℚ) (1 / 2) 90) 10 rfl
  have c := newVertices_corners (2 / 10 : ℚ) (1 / 2)
  refine ⟨rfl, h.1, h.2 ?_ ?_⟩
  · simp only [initState, c, zeroSpeedConsts]; norm_num
  · simp only [initState, c, zeroSpeedConsts]; norm_num

/-- State reached in the end-to-end scenario after `n ≤ 99` calls: heading still 0, every
position x advanced by `n * 0.008`, every position y unchanged. -/
theorem scenario_before_hit (g : Glm α)
    (hdir : g.normalize (g.cos (g.radians 0), g.sin (g.radians 0)) = (1, 0))
    (n : Nat) (hn : n ≤ 99) :
    (frames g sourceConsts n (initState (2 / 10 : α) (1 / 2) 0)).direction = 0 ∧
    (∀ k : Fin 16, k.val % 4 = 0 →
      (frames g sourceConsts n (initState (2 / 10 : α) (1 / 2) 0)).vertices k
        = (initState (2 / 10 : α) (1 / 2) 0).vertices k + (n : α) * (8 / 1000)) ∧
    (∀ k : Fin 16, k.val % 4 = 1 →
      (frames g sourceConsts n (initState (2 / 10 : α) (1 / 2) 0)).vertices k
        = (initState (2 / 10 : α) (1 / 2) 0).vertices k) := by
  induction n with
  | zero =>
    refine ⟨rfl, ?_, ?_⟩
    · intro k _; show _ = _ + ((0 : Nat) : α) * _; simp; rfl
    · intro k _; rfl
  | succ m ih =>
    obtain ⟨hd, hx, hy⟩ := ih (by omega)
    have hm : ((m : α)) ≤ 98 := by
      have : m ≤ 98 := by omega
      exact_mod_cast this
    have hm0 : (0 : α) ≤ (m : α) := Nat.cast_nonneg m
    have dv : directionVec g sourceConsts
        (frames g sourceConsts m (initState (2 / 10 : α) (1 / 2) 0)).direction
        = (8 / 1000, 0) := by
      rw [hd]; simp [directionVec, hdir, sourceConsts]
    have c := newVertices_corners (2 / 10 : α) (1 / 2)
    have tx : ∀ k : Fin 16, k.val % 4 = 0 →
        translated g sourceConsts (frames g sourceConsts m (initState (2 / 10 : α) (1 / 2) 0)) k
          = (initState (2 / 10 : α) (1 / 2) 0).vertices k + ((m + 1 : Nat) : α) * (8 / 1000) := by
      intro k hk
      rw [translated, translate_x _ _ k hk, dv, hx k hk]
      push_cast; ring
    have ty : ∀ k : Fin 16, k.val % 4 = 1 →
        translated g sourceConsts (frames g sourceConsts m (initState (2 / 10 : α) (1 / 2) 0)) k
          = (initState (2 / 10 : α) (1 / 2) 0).vertices k := by
      intro k hk
      rw [translated, translate_y _ _ k hk, dv, hy k hk]
      simp
    refine ⟨?_, ?_, ?_⟩
    · rw [frames_succ, frame_direction]
      have hX : collisionX sourceConsts (translated g sourceConsts
          (frames g sourceConsts m (initState (2 / 10 : α) (1 / 2) 0))) = false := by
        rw [← Bool.not_eq_true, collisionX_iff, tx 8 (by decide), tx 0 (by decide)]
        simp only [initState, c, sourceConsts]
        push_cast
        rintro (h | h) <;> linarith
      have hY : collisionY sourceConsts (translated g sourceConsts
          (frames g sourceConsts m (initState (2 / 10 : α) (1 / 2) 0))) = false := by
        rw [← Bool.not_eq_true, collisionY_iff, ty 9 (by decide), ty 1 (by decide)]
        simp only [initState, c, sourceConsts]
        rintro (h | h) <;> linarith
      rw [hX, hY]
      simpa using hd
    · intro k hk
      rw [frames_succ, frame_vertices, tx k hk]
    · intro k hk
      rw [frames_succ, frame_vertices, ty k hk]

/-- C7. End-to-end scenario: a quad centred at the origin with half-width 0.2 and
half-height 0.25, heading 0, margin 0, speed 0.008, the unit direction of heading 0 being
`(1, 0)`. After each of the calls 1 to 99 the upper-right x is below 1 and the heading is
still 0; the y coordinates never change during the first 100 calls; call 100 is the first
after which the upper-right x is at least 1, and it leaves the heading equal to 180. -/
theorem end_to_end_scenario (g : Glm α)
    (hdir : g.normalize (g.cos (g.radians 0), g.sin (g.radians 0)) = (1, 0)) :
    (∀ n : Nat, 1 ≤ n → n ≤ 99 →
      (frames g sourceConsts n (initState (2 / 10 : α) (1 / 2) 0)).vertices 0 < 1 ∧
      (frames g sourceConsts n (initState (2 / 10 : α) (1 / 2) 0)).direction = 0) ∧
    (∀ n : Nat, n ≤ 100 → ∀ k : Fin 16, k.val % 4 = 1 →
      (frames g sourceConsts n (initState (2 / 10 : α) (1 / 2) 0)).vertices k
        = (initState (2 / 10 : α) (1 / 2) 0).vertices k) ∧
    (frames g sourceConsts 100 (initState (2 / 10 : α) (1 / 2) 0)).vertices 0 ≥ 1 ∧
    (frames g sourceConsts 100 (initState (2 / 10 : α) (1 / 2) 0)).direction = 180 := by
  have c := newVertices_corners (2 / 10 : α) (1 / 2)
  obtain ⟨hd, hx, hy⟩ := scenario_before_hit g hdir 99 (le_refl 99)
  have dv : directionVec g sourceConsts
      (frames g sourceConsts 99 (initState (2 / 10 : α) (1 / 2) 0)).direction
      = (8 / 1000, 0) := by
    rw [hd]; simp [directionVec, hdir, sourceConsts]
  have t0 : translated g sourceConsts
      (frames g sourceConsts 99 (initState (2 / 10 : α) (1 / 2) 0)) 0 = 1 := by
    rw [translated, translate_x _ _ 0 (by decide), dv, hx 0 (by decide)]
    simp only [initState, c]
    norm_num
  have ty : ∀ k : Fin 16, k.val % 4 = 1 →
      translated g sourceConsts (frames g sourceConsts 99 (initState (2 / 10 : α) (1 / 2) 0)) k
        = (initState (2 / 10 : α) (1 / 2) 0).vertices k := by
    intro k hk
    rw [translated, translate_y _ _ k hk, dv, hy k hk]
    simp
  refine ⟨?_, ?_, ?_, ?_⟩
  · intro n _ hn
    obtain ⟨hdn, hxn, -⟩ := scenario_before_hit g hdir n hn
    refine ⟨?_, hdn⟩
    rw [hxn 0 (by decide)]
    have hn99 : (n : α) ≤ 99 := by exact_mod_cast hn
    simp only [initState, c]
    linarith
  · intro n hn k hk
    rcases Nat.lt_or_ge n 100 with h | h
    · exact (scenario_before_hit g hdir n (by omega)).2.2 k hk
    · have e : n = 99 + 1 := by omega
      rw [e, frames_succ, frame_vertices, ty k hk]
  · show (frames g sourceConsts (99 + 1) _).vertices 0 ≥ 1
    rw [frames_succ, frame_vertices, t0]
  · show (frames g sourceConsts (99 + 1) _).direction = 180
    have hX : collisionX sourceConsts (translated g sourceConsts
        (frames g sourceConsts 99 (initState (2 / 10 : α) (1 / 2) 0))) = true := by
      rw [collisionX_iff, t0]
      right
      simp [sourceConsts]
    have hY : collisionY sourceConsts (translated g sourceConsts
        (frames g sourceConsts 99 (initState (2 / 10 : α) (1 / 2) 0))) = false := by
      rw [← Bool.not_eq_true, collisionY_iff, ty 9 (by decide), ty 1 (by decide)]
      simp only [initState, c, sourceConsts]
      rintro (h | h) <;> linarith
    rw [frames_succ, frame_direction, hX, hY, hd]
    norm_num [reflectX]

/-- Witness for C7: the rational axis model of glm has unit direction `(1, 0)` at heading 0,
and there the hundredth call turns the heading to 180. -/
theorem end_to_end_scenario_witness :
    axisGlm.normalize (axisGlm.cos (axisGlm.radians 0), axisGlm.sin (axisGlm.radians 0))
      = (1, 0) ∧
    (frames axisGlm sourceConsts 99 (initState (2 / 10 : ℚ) (1 / 2) 0)).direction = 0 ∧
    (frames axisGlm sourceConsts 100 (initState (2 / 10 : ℚ) (1 / 2) 0)).direction = 180 := by
  have h : axisGlm.normalize (axisGlm.cos (axisGlm.radians 0), axisGlm.sin (axisGlm.radians 0))
      = (1, 0) := by
    simp [axisGlm]
  have t := end_to_end_scenario axisGlm h
  exact ⟨h, (t.1 99 (by decide) (by decide)).2, t.2.2.2⟩

end Motion

/-! ## Range of the heading -/

section Heading

variable {α : Type} [LinearOrderedField α]

/-- C10. Heading stays bounded: a `frame` call started with a heading in `[0, 360]` ends
with a heading in `[0, 360]`, whichever collisions are detected; hence from a start heading
in `[0, 360)` every heading reached by a sequence of `frame` and `resizeCallback` calls lies
in `[0, 360]`; and 360 itself is reached from heading 0 by a vertical-only collision. -/
theorem heading_stays_bounded (g : Glm α) (c : Consts α) :
    (∀ s : State α, 0 ≤ s.direction → s.direction ≤ 360 →
      0 ≤ (frame g c s).direction ∧ (frame g c s).direction ≤ 360) ∧
    (∀ (s : State α) (calls : List Call), 0 ≤ s.direction → s.direction < 360 →
      0 ≤ (run g c s calls).direction ∧ (run g c s calls).direction ≤ 360) ∧
    (∃ s : State α, s.direction = 0 ∧
      collisionX c (translated g c s) = false ∧ collisionY c (translated g c s) = true ∧
      (run g c s [Call.frame]).direction = 360) := by
  refine ⟨fun s h0 h1 => frame_direction_bounds g c s h0 h1, ?_, ?_⟩
  · intro s calls h0 h1
    have key : ∀ (l : List Call) (t : State α), 0 ≤ t.direction → t.direction ≤ 360 →
        0 ≤ (run g c t l).direction ∧ (run g c t l).direction ≤ 360 := by
      intro l
      induction l with
      | nil => intro t a b; exact ⟨a, b⟩
      | cons x xs ih =>
        intro t a b
        show 0 ≤ (run g c (step g c t x) xs).direction ∧ _
        cases x with
        | frame =>
          obtain ⟨p, q⟩ := frame_direction_bounds g c t a b
          exact ih _ p q
        | resize w h =>
          obtain ⟨p, q⟩ := frame_direction_bounds g c (rescale t w h) a b
          exact ih _ p q
    exact key calls s h0 (le_of_lt h1)
  · have hX : collisionX c (translated g c
        { vertices := fun k =>
            if k = 1 then 1 - c.MARGIN - (directionVec g c 0).2
            else if k = 9 then -(directionVec g c 0).2
            else if k = 0 then -c.MARGIN - (directionVec g c 0).1
            else if k = 8 then c.MARGIN - (directionVec g c 0).1 else 0
          direction := 0, lastWidth := WINDOW_SIZE, lastHeight := WINDOW_SIZE }) = false := by
      rw [← Bool.not_eq_true, collisionX_iff, translated, translate_x _ _ 8 (by decide),
        translate_x _ _ 0 (by decide)]
      simp only [Fin.reduceEq, if_true, if_false]
      rintro (h | h) <;> linarith
    have hY : collisionY c (translated g c
        { vertices := fun k =>
            if k = 1 then 1 - c.MARGIN - (directionVec g c 0).2
            else if k = 9 then -(directionVec g c 0).2
            else if k = 0 then -c.MARGIN - (directionVec g c 0).1
            else if k = 8 then c.MARGIN - (directionVec g c 0).1 else 0
          direction := 0, lastWidth := WINDOW_SIZE, lastHeight := WINDOW_SIZE }) = true := by
      rw [collisionY_iff, translated, translate_y _ _ 1 (by decide)]
      simp only [Fin.reduceEq, if_true, if_false]
      right
      linarith
    refine ⟨_, rfl, hX, hY, ?_⟩
    show (frame g c _).direction = 360
    rw [frame_direction, hX, hY]
    simp [reflectY]

end Heading

end BouncingDvD
